import Mathlib

/-!
Verification of the virtual-memory page-table core of a bare-metal ARM
kernel (`kern/src/vm/pagetable.rs`), as a shallow embedding.

Machine integers (`u64`/`usize`, both 64-bit on the target) are modelled as
`Nat`; every bit-level operation goes through an explicit bitfield codec, so
overflow and truncation are visible as `% 2 ^ w`.  Operations that panic in
the source (`assert!`, `unimplemented!` preconditions) are modelled as
`Option`-returning functions, `none` standing for the fatal halt.
-/

/-- `PAGE_SIZE` from `param.rs`: the 64 KiB translation granule
(`const_assert_size!(Page, PAGE_SIZE)` with the tables `repr(align(65536))`). -/
def PAGE_SIZE : Nat := 65536

/-- `PAGE_ALIGN` from `param.rs`: the granule's bit width, used as the shift
applied to physical bases before storing them in a descriptor's `ADDR` field. -/
def PAGE_ALIGN : Nat := 16

/-- One named bitfield of a descriptor: `width` bits starting at bit `shift`. -/
structure BitField where
  shift : Nat
  width : Nat

/-- Modelled from the spec (§4.3 bitfield codec, `aarch64::vmsa` is not in the
sources): read the field `f` of the raw 64-bit descriptor `e`, i.e.
`(e & mask) >> shift`, which for a `width`-bit field at `shift` equals
`(e >> shift) % 2 ^ width`. -/
def get_value (e : Nat) (f : BitField) : Nat :=
  (e >>> f.shift) % 2 ^ f.width

/-- Modelled from the spec (§4.3 bitfield codec): overwrite the field `f` of
the raw descriptor `e` with `v`, i.e. `(e & !mask) | ((v << shift) & mask)`.
Since the three bit regions (below the field, the field, above the field) are
disjoint, the or of the masked parts is their sum. -/
def set_value (e v : Nat) (f : BitField) : Nat :=
  e % 2 ^ f.shift + v % 2 ^ f.width * 2 ^ f.shift
    + 2 ^ (f.shift + f.width) * (e / 2 ^ (f.shift + f.width))

/-- Modelled from the spec: descriptor layout of `RawL2Entry` in
`aarch64::vmsa` (ARMv8 table/page descriptor; the kernel source's own doc
comment fixes `ADDR` as bits `[47:16]` and the attributes as bits `[10:0]`).
`RawL3Entry` shares this layout, and the source itself reads L3 entries
through the `RawL2Entry` field constants. -/
def RawL2Entry.ADDR : BitField := ⟨16, 32⟩

/-- Access flag, bit 10. -/
def RawL2Entry.AF : BitField := ⟨10, 1⟩

/-- Shareability, bits [9:8]. -/
def RawL2Entry.SH : BitField := ⟨8, 2⟩

/-- Access permission, bits [7:6]. -/
def RawL2Entry.AP : BitField := ⟨6, 2⟩

/-- Non-secure bit, bit 5. -/
def RawL2Entry.NS : BitField := ⟨5, 1⟩

/-- Memory-attribute index, bits [4:2]. -/
def RawL2Entry.ATTR : BitField := ⟨2, 3⟩

/-- Descriptor type (table/page vs block), bit 1. -/
def RawL2Entry.TYPE : BitField := ⟨1, 1⟩

/-- Valid bit, bit 0. -/
def RawL2Entry.VALID : BitField := ⟨0, 1⟩

/-- Modelled from the spec: `EntrySh::ISh` (inner shareable) in `aarch64::vmsa`. -/
def EntrySh.ISh : Nat := 3

/-- Modelled from the spec: `EntryAttr::Mem` ("normal memory" attribute index). -/
def EntryAttr.Mem : Nat := 0

/-- Modelled from the spec: `EntryAttr::Dev` ("device, uncached" attribute index). -/
def EntryAttr.Dev : Nat := 1

/-- Modelled from the spec: `EntryType::Table` tag. -/
def EntryType.Table : Nat := 1

/-- Modelled from the spec: `EntryValid::Valid` tag. -/
def EntryValid.Valid : Nat := 1

/-- Modelled from the spec: `EntryPerm::KERN_RW` access-permission encoding. -/
def EntryPerm.KERN_RW : Nat := 0

/-- Modelled from the spec: `EntryPerm::USER_RW` access-permission encoding. -/
def EntryPerm.USER_RW : Nat := 1

/-- `PageTable::locate(va)`: the implemented address decomposition.  Asserts
granule alignment, extracts `l3_index = (va >> 16) & 0x1FFF` and
`l2_index = ((va >> 16) >> 13) & 0x1FFF`, asserts `l2_index < 2` (the number
of L3 tables), and returns `(l3_index, l2_index)`.  The two `assert!` panics
are modelled as `none`. -/
def PageTable.locate (va : Nat) : Option (Nat × Nat) :=
  if va % PAGE_SIZE ≠ 0 then none
  else
    let l3_index := (va >>> 16) &&& 0x1FFF
    let l2_index := ((va >>> 16) >>> 13) &&& 0x1FFF
    if l2_index < 2 then some (l3_index, l2_index) else none

/-- `L3Entry::is_valid`: reads the valid bit of the raw entry (the source
reads it through the `RawL2Entry::VALID` constant). -/
def L3Entry.is_valid (e : Nat) : Bool :=
  get_value e RawL2Entry.VALID != 0

/-- `L3Entry::get_page_addr`: the `ADDR` field as a physical address when the
entry is valid, `None` otherwise. -/
def L3Entry.get_page_addr (e : Nat) : Option Nat :=
  match L3Entry.is_valid e with
  | true => some (get_value e RawL2Entry.ADDR)
  | false => none

/-- The L2 table descriptor installed by the loop body of `PageTable::new`
for an L3 table whose physical base is `base`: starting from the zeroed
`RawL2Entry::new(0)`, set `ADDR := base >> PAGE_ALIGN`, `AF := 1`,
`SH := ISh`, `AP := perm`, `NS := 1`, `ATTR := Mem`, `TYPE := Table`,
`VALID := Valid`, in the source's order. -/
def tableDescriptor (perm base : Nat) : Nat :=
  set_value (set_value (set_value (set_value (set_value (set_value (set_value
    (set_value 0 (base >>> PAGE_ALIGN) RawL2Entry.ADDR)
    1 RawL2Entry.AF)
    EntrySh.ISh RawL2Entry.SH)
    perm RawL2Entry.AP)
    1 RawL2Entry.NS)
    EntryAttr.Mem RawL2Entry.ATTR)
    EntryType.Table RawL2Entry.TYPE)
    EntryValid.Valid RawL2Entry.VALID

/-- The page-table state: the L2 table's raw entries, and the raw L3 entries
of table `i` at slot `j` as `l3 i j`.  (The arrays hold 8192 entries each;
`locate` only ever produces indices below 8192, resp. 2.) -/
structure PageTable where
  l2 : Nat → Nat
  l3 : Nat → Nat → Nat

/-- `PageTable::new(perm)`: fresh zeroed L2/L3 tables, then the loop installs
a table descriptor for each of the 2 L3 tables in L2 entries 0 and 1.  The
physical bases of the two L3 tables come from the allocator at run time, so
they are a parameter `l3base` of the model (the source obtains them from
`as_ptr`, whose meaning is its documented one — see the divergence theorem
about `as_ptr`'s actual body). -/
def PageTable.new (perm : Nat) (l3base : Nat → Nat) : PageTable :=
  { l2 := fun i => if i < 2 then tableDescriptor perm (l3base i) else 0
    l3 := fun _ _ => 0 }

/-- Modelled from the spec (§4.4; `PageTable::is_valid` is an
`unimplemented!` stub in the source): locate the slot and read its valid
bit.  The `locate` panic is modelled as `none`. -/
def PageTable.is_valid (pt : PageTable) (va : Nat) : Option Bool :=
  (PageTable.locate va).map fun p => L3Entry.is_valid (pt.l3 p.2 p.1)

/-- Modelled from the spec (§4.4; `PageTable::set_entry` is an
`unimplemented!` stub in the source): locate the slot and overwrite it with
the supplied raw descriptor. -/
def PageTable.set_entry (pt : PageTable) (va entry : Nat) : Option PageTable :=
  (PageTable.locate va).map fun p =>
    { pt with l3 := fun i j => if i = p.2 ∧ j = p.1 then entry else pt.l3 i j }

/-- `PagePerm`: the closed permission variant passed to `UserPageTable::alloc`. -/
inductive PagePerm where
  | RW
  | RO
  | RWX

/-- Modelled from the spec (§4.6: the permission class is "mapped to the
architecture's access-permission ... bit combinations"): the `AP` encoding
for each user permission class (`USER_RW = 0b01`, user read-only `= 0b11`;
`RWX` differs from `RW` only in execute-never bits above bit 10, outside the
attribute window this model tracks). -/
def PagePerm.bits : PagePerm → Nat
  | PagePerm.RW => 1
  | PagePerm.RO => 3
  | PagePerm.RWX => 1

/-- Modelled from the spec (§4.6 and the source's doc comment "correct value
for lower attributes[10:0] as well as address[47:16]"): the leaf descriptor
`alloc` installs for a page at physical address `pa`: `ADDR := pa >> 16`,
access flag set, inner shareable, the requested permission, normal memory,
page type, valid. -/
def leafDescriptor (pa : Nat) (perm : PagePerm) : Nat :=
  set_value (set_value (set_value (set_value (set_value (set_value (set_value
    (set_value 0 (pa >>> PAGE_ALIGN) RawL2Entry.ADDR)
    1 RawL2Entry.AF)
    EntrySh.ISh RawL2Entry.SH)
    (PagePerm.bits perm) RawL2Entry.AP)
    1 RawL2Entry.NS)
    EntryAttr.Mem RawL2Entry.ATTR)
    EntryType.Table RawL2Entry.TYPE)
    EntryValid.Valid RawL2Entry.VALID

/-- Modelled from the spec (§4.6; `UserPageTable::new` is an
`unimplemented!` stub): a page table built with `USER_RW` table permission
and no populated leaf descriptors. -/
def UserPageTable.new (l3base : Nat → Nat) : PageTable :=
  PageTable.new EntryPerm.USER_RW l3base

/-- Modelled from the spec (§4.6; `UserPageTable::alloc` is an
`unimplemented!` stub): fatal (`none`) when `va` is below the user image
base, when `locate` rejects `va`, or when the slot is already valid;
otherwise install the leaf descriptor for the freshly allocated page via
`set_entry` and return the new table together with the page.  The user image
base (`USER_IMG_BASE`, in the absent `param.rs`) and the physical address
`pa` the frame allocator hands back are parameters of the model. -/
def UserPageTable.alloc (base : Nat) (pt : PageTable) (va pa : Nat)
    (perm : PagePerm) : Option (PageTable × Nat) :=
  if va < base then none
  else
    (PageTable.locate va).bind fun p =>
      if L3Entry.is_valid (pt.l3 p.2 p.1) then none
      else (PageTable.set_entry pt va (leafDescriptor pa perm)).map
        fun pt2 => (pt2, pa)

/-- Modelled from the spec (§4.5): the leaf descriptor `KernPageTable::new`
installs for the identity-mapped frame at `pa`, with kernel read/write
permission and the memory-attribute index of its range (`Mem` for RAM,
`Dev` for MMIO). -/
def kernLeaf (pa attr : Nat) : Nat :=
  set_value (set_value (set_value (set_value (set_value (set_value (set_value
    (set_value 0 (pa >>> PAGE_ALIGN) RawL2Entry.ADDR)
    1 RawL2Entry.AF)
    EntrySh.ISh RawL2Entry.SH)
    EntryPerm.KERN_RW RawL2Entry.AP)
    1 RawL2Entry.NS)
    attr RawL2Entry.ATTR)
    EntryType.Table RawL2Entry.TYPE)
    EntryValid.Valid RawL2Entry.VALID

/-- Modelled from the spec (§4.5; `KernPageTable::new` is an
`unimplemented!` stub): a table built with `KERN_RW` permission in which,
for every granule-aligned physical frame in the RAM range `[0, ram_end)`
and in the MMIO range `[io_base, io_base_end)`, the identity-mapping leaf
descriptor is installed.  The slot `(i, j)` holds the frame at
`va = i * 2^29 + j * 2^16`, matching `locate`'s decomposition; the range
bounds live in the absent `param.rs` and are parameters of the model. -/
def KernPageTable.new (l3base : Nat → Nat)
    (ram_end io_base io_base_end : Nat) : PageTable :=
  let pt := PageTable.new EntryPerm.KERN_RW l3base
  { l2 := pt.l2
    l3 := fun i j =>
      if i < 2 ∧ j < 8192 then
        if i * 2 ^ 29 + j * 2 ^ 16 < ram_end then
          kernLeaf (i * 2 ^ 29 + j * 2 ^ 16) EntryAttr.Mem
        else if io_base ≤ i * 2 ^ 29 + j * 2 ^ 16 ∧ i * 2 ^ 29 + j * 2 ^ 16 < io_base_end then
          kernLeaf (i * 2 ^ 29 + j * 2 ^ 16) EntryAttr.Dev
        else pt.l3 i j
      else pt.l3 i j }

/-- The body of `L2PageTable::as_ptr` is `PhysicalAddr::from(self.as_ptr())`,
where `self.as_ptr()` resolves to this very inherent method: the call
recurses unconditionally.  Indexing the unfolding by fuel, `none` means the
computation has not produced a value within the given number of unfoldings. -/
def L2PageTable.as_ptrFuel : Nat → Option Nat
  | 0 => none
  | n + 1 => L2PageTable.as_ptrFuel n

/-- The body of `L3PageTable::as_ptr` is the same self-call as
`L2PageTable::as_ptr`; same fuel-indexed model. -/
def L3PageTable.as_ptrFuel : Nat → Option Nat
  | 0 => none
  | n + 1 => L3PageTable.as_ptrFuel n

/- ### Generic bitfield codec lemmas -/

/-- Reading back the field just written returns the written value, truncated
to the field's width. -/
theorem get_value_set_value_self (e v : Nat) (f : BitField) :
    get_value (set_value e v f) f = v % 2 ^ f.width := by
  unfold get_value set_value
  rw [Nat.shiftRight_eq_div_pow]
  have h1 : e % 2 ^ f.shift + v % 2 ^ f.width * 2 ^ f.shift
      + 2 ^ (f.shift + f.width) * (e / 2 ^ (f.shift + f.width))
      = e % 2 ^ f.shift
        + (v % 2 ^ f.width + 2 ^ f.width * (e / 2 ^ (f.shift + f.width))) * 2 ^ f.shift := by
    rw [pow_add]; ring
  rw [h1, Nat.add_mul_div_right _ _ (Nat.two_pow_pos f.shift),
    Nat.div_eq_of_lt (Nat.mod_lt _ (Nat.two_pow_pos f.shift)), Nat.zero_add,
    Nat.add_mul_mod_self_left, Nat.mod_mod_of_dvd _ dvd_rfl]

/-- Writing a field strictly above the window of `g` leaves `g` unchanged. -/
theorem get_value_set_value_of_le (e v : Nat) (f g : BitField)
    (h : g.shift + g.width ≤ f.shift) :
    get_value (set_value e v f) g = get_value e g := by
  have hmod : ∀ r q : Nat,
      (r + v % 2 ^ f.width * 2 ^ f.shift + 2 ^ (f.shift + f.width) * q)
          % 2 ^ (g.shift + g.width) = r % 2 ^ (g.shift + g.width) := by
    intro r q
    obtain ⟨a, ha⟩ := pow_dvd_pow 2 h
    obtain ⟨b, hb⟩ := pow_dvd_pow 2 (le_trans h (Nat.le_add_right f.shift f.width))
    rw [ha, hb]
    have hr : r + v % 2 ^ f.width * (2 ^ (g.shift + g.width) * a)
        + 2 ^ (g.shift + g.width) * b * q
        = r + 2 ^ (g.shift + g.width) * (v % 2 ^ f.width * a + b * q) := by ring
    rw [hr, Nat.add_mul_mod_self_left]
  unfold get_value set_value
  rw [Nat.shiftRight_eq_div_pow, Nat.shiftRight_eq_div_pow,
    ← Nat.mod_mul_right_div_self, ← Nat.mod_mul_right_div_self e, ← pow_add,
    hmod (e % 2 ^ f.shift) (e / 2 ^ (f.shift + f.width)),
    Nat.mod_mod_of_dvd e (pow_dvd_pow 2 h)]

/-- Writing a field whose window lies strictly below `g` leaves `g`
unchanged. -/
theorem get_value_set_value_of_ge (e v : Nat) (f g : BitField)
    (h : f.shift + f.width ≤ g.shift) :
    get_value (set_value e v f) g = get_value e g := by
  unfold get_value set_value
  rw [Nat.shiftRight_eq_div_pow, Nat.shiftRight_eq_div_pow]
  have hlow : e % 2 ^ f.shift + v % 2 ^ f.width * 2 ^ f.shift
      < 2 ^ (f.shift + f.width) := by
    have h1 : e % 2 ^ f.shift < 2 ^ f.shift := Nat.mod_lt _ (Nat.two_pow_pos _)
    have h2 : v % 2 ^ f.width < 2 ^ f.width := Nat.mod_lt _ (Nat.two_pow_pos _)
    have h3 : v % 2 ^ f.width * 2 ^ f.shift ≤ (2 ^ f.width - 1) * 2 ^ f.shift :=
      Nat.mul_le_mul_right _ (Nat.le_sub_one_of_lt h2)
    have h4 : (2 ^ f.width - 1) * 2 ^ f.shift + 2 ^ f.shift = 2 ^ (f.shift + f.width) := by
      have h5 := Nat.two_pow_pos f.width
      have h6 : 2 ^ f.shift ≤ 2 ^ f.width * 2 ^ f.shift :=
        Nat.le_mul_of_pos_left _ h5
      rw [pow_add, Nat.mul_comm (2 ^ f.shift), Nat.sub_one_mul]
      omega
    omega
  have hA : (e % 2 ^ f.shift + v % 2 ^ f.width * 2 ^ f.shift
      + 2 ^ (f.shift + f.width) * (e / 2 ^ (f.shift + f.width))) / 2 ^ (f.shift + f.width)
      = e / 2 ^ (f.shift + f.width) := by
    rw [Nat.add_mul_div_left _ _ (Nat.two_pow_pos (f.shift + f.width)),
      Nat.div_eq_of_lt hlow, Nat.zero_add]
  have hpow : (2 : Nat) ^ g.shift
      = 2 ^ (f.shift + f.width) * 2 ^ (g.shift - (f.shift + f.width)) := by
    rw [← pow_add]
    congr 1
    omega
  rw [hpow, ← Nat.div_div_eq_div_mul, ← Nat.div_div_eq_div_mul, hA]

/-- Reading any field of the all-zero descriptor gives zero. -/
theorem get_value_zero (f : BitField) : get_value 0 f = 0 := by
  unfold get_value
  rw [Nat.shiftRight_eq_div_pow, Nat.zero_div, Nat.zero_mod]
/- ### Address decomposition (`locate`) -/

/-- A 13-bit mask is a mod-8192 operation. -/
theorem and_8191_eq_mod (x : Nat) : x &&& 8191 = x % 8192 := by
  have h := Nat.and_pow_two_sub_one_eq_mod x 13
  norm_num at h
  exact h

/-- On a granule-aligned address inside the 1 GiB window, `locate` succeeds
and returns the arithmetic decomposition `(va / 2^16 mod 2^13, va / 2^29)`. -/
theorem locate_window (va : Nat) (h1 : va % PAGE_SIZE = 0) (h2 : va < 2 ^ 30) :
    PageTable.locate va = some ((va / 2 ^ 16) % 2 ^ 13, va / 2 ^ 29) := by
  have hdiv : va / 2 ^ 29 < 2 := by omega
  have e3 : (va >>> 16) &&& 0x1FFF = (va / 2 ^ 16) % 2 ^ 13 := by
    rw [Nat.shiftRight_eq_div_pow, and_8191_eq_mod]
    norm_num
  have e2 : ((va >>> 16) >>> 13) &&& 0x1FFF = va / 2 ^ 29 := by
    rw [← Nat.shiftRight_add]
    norm_num
    rw [Nat.shiftRight_eq_div_pow, and_8191_eq_mod, Nat.mod_eq_of_lt (by omega)]
  simp only [PageTable.locate, e2, e3]
  rw [if_neg (not_not_intro h1), if_pos hdiv]

/-- Recombining the window decomposition reproduces the address. -/
theorem window_recombine (va : Nat) (h1 : va % PAGE_SIZE = 0) (_h2 : va < 2 ^ 30) :
    (va / 2 ^ 29) * 2 ^ 29 + ((va / 2 ^ 16) % 2 ^ 13) * 2 ^ 16 = va := by
  have h1n : va % 65536 = 0 := h1
  omega

/-- C4: `PageTable::locate(va)` halts fatally (modelled as `none`) exactly
when `va` is not granule-aligned or the extracted L2 index
`(va >> 29) & 0x1FFF` is not strictly below `N = 2`; equivalently, on every
granule-aligned `va` whose L2 index is below 2 it returns normally. -/
theorem locate_fatal_iff (va : Nat) :
    PageTable.locate va = none ↔
      va % PAGE_SIZE ≠ 0 ∨ ¬ ((va >>> 29) &&& 0x1FFF < 2) := by
  have e2 : ((va >>> 16) >>> 13) &&& 0x1FFF = (va >>> 29) &&& 0x1FFF := by
    rw [← Nat.shiftRight_add]
  simp only [PageTable.locate, e2]
  by_cases hA : va % PAGE_SIZE ≠ 0
  · rw [if_pos hA]
    simp [hA]
  · rw [if_neg hA]
    by_cases hB : (va >>> 29) &&& 0x1FFF < 2
    · rw [if_pos hB]
      simp [hA, hB]
    · rw [if_neg hB]
      simp [hA, hB]

/-- C2: on a granule-aligned `va` whose decomposed L2 index is below `N = 2`,
`locate` returns the pair whose L3 index is `(va >> 16) & 0x1FFF` and whose
L2 index is `(va >> 29) & 0x1FFF`. -/
theorem locate_decompose (va : Nat) (h1 : va % PAGE_SIZE = 0)
    (h2 : (va >>> 29) &&& 0x1FFF < 2) :
    PageTable.locate va = some ((va >>> 16) &&& 0x1FFF, (va >>> 29) &&& 0x1FFF) := by
  have e2 : ((va >>> 16) >>> 13) &&& 0x1FFF = (va >>> 29) &&& 0x1FFF := by
    rw [← Nat.shiftRight_add]
  simp only [PageTable.locate, e2]
  rw [if_neg (not_not_intro h1), if_pos h2]

/-- Witness for C2 at `va = 65536`. -/
theorem locate_decompose_witness :
    PageTable.locate 65536 = some ((65536 >>> 16) &&& 0x1FFF, (65536 >>> 29) &&& 0x1FFF) :=
  locate_decompose 65536 (by decide) (by decide)

/-- C3: on granule-aligned addresses inside the supported 1 GiB window
(`va < 2^30`), `locate` is injective, and recombining the returned pair as
`(l2_index << 29) | (l3_index << 16)` reproduces `va` exactly. -/
theorem locate_injective_recombine :
    (∀ va1 va2 : Nat, va1 % PAGE_SIZE = 0 → va2 % PAGE_SIZE = 0 →
      va1 < 2 ^ 30 → va2 < 2 ^ 30 →
      PageTable.locate va1 = PageTable.locate va2 → va1 = va2) ∧
    (∀ va l3i l2i : Nat, va % PAGE_SIZE = 0 → va < 2 ^ 30 →
      PageTable.locate va = some (l3i, l2i) →
      (l2i <<< 29) ||| (l3i <<< 16) = va) := by
  have hrec : ∀ va l3i l2i : Nat, va % PAGE_SIZE = 0 → va < 2 ^ 30 →
      PageTable.locate va = some (l3i, l2i) →
      (l2i <<< 29) ||| (l3i <<< 16) = va := by
    intro va l3i l2i h1 h2 hl
    rw [locate_window va h1 h2] at hl
    simp only [Option.some.injEq, Prod.mk.injEq] at hl
    obtain ⟨h3, h4⟩ := hl
    subst h3
    subst h4
    have hA : (va / 2 ^ 16) % 2 ^ 13 * 2 ^ 16 < 2 ^ 29 := by omega
    have hor : 2 ^ 29 * (va / 2 ^ 29) + (va / 2 ^ 16) % 2 ^ 13 * 2 ^ 16
        = 2 ^ 29 * (va / 2 ^ 29) ||| (va / 2 ^ 16) % 2 ^ 13 * 2 ^ 16 :=
      Nat.mul_add_lt_is_or hA _
    rw [Nat.shiftLeft_eq, Nat.shiftLeft_eq, Nat.mul_comm (va / 2 ^ 29), ← hor]
    have h1n : va % 65536 = 0 := h1
    omega
  refine ⟨?_, hrec⟩
  intro va1 va2 h1 h2 h3 h4 heq
  have l1 := locate_window va1 h1 h3
  have l2w := locate_window va2 h2 h4
  have r1 := hrec va1 ((va1 / 2 ^ 16) % 2 ^ 13) (va1 / 2 ^ 29) h1 h3 l1
  have r2 := hrec va2 ((va2 / 2 ^ 16) % 2 ^ 13) (va2 / 2 ^ 29) h2 h4 l2w
  rw [l1, l2w] at heq
  simp only [Option.some.injEq, Prod.mk.injEq] at heq
  rw [← r1, ← r2, heq.1, heq.2]

/-- Witness for C3 at `va = 65536`, `locate 65536 = some (1, 0)`. -/
theorem locate_injective_recombine_witness :
    (65536 : Nat) = 65536 ∧ ((0 : Nat) <<< 29) ||| ((1 : Nat) <<< 16) = 65536 :=
  ⟨locate_injective_recombine.1 65536 65536 (by decide) (by decide) (by decide)
      (by decide) rfl,
   locate_injective_recombine.2 65536 1 0 (by decide) (by decide) (by decide)⟩

/- ### Fields of the installed descriptors -/

/-- The valid bit of the L2 table descriptor installed by `PageTable::new`. -/
theorem tableDescriptor_VALID (perm base : Nat) :
    get_value (tableDescriptor perm base) RawL2Entry.VALID = 1 := by
  unfold tableDescriptor
  rw [get_value_set_value_self]
  decide

/-- The type tag of the installed L2 table descriptor. -/
theorem tableDescriptor_TYPE (perm base : Nat) :
    get_value (tableDescriptor perm base) RawL2Entry.TYPE = 1 := by
  unfold tableDescriptor
  rw [get_value_set_value_of_ge _ _ RawL2Entry.VALID RawL2Entry.TYPE (by decide),
    get_value_set_value_self]
  decide

/-- The memory-attribute index of the installed L2 table descriptor. -/
theorem tableDescriptor_ATTR (perm base : Nat) :
    get_value (tableDescriptor perm base) RawL2Entry.ATTR = EntryAttr.Mem := by
  unfold tableDescriptor
  rw [get_value_set_value_of_ge _ _ RawL2Entry.VALID RawL2Entry.ATTR (by decide),
    get_value_set_value_of_ge _ _ RawL2Entry.TYPE RawL2Entry.ATTR (by decide),
    get_value_set_value_self]
  decide

/-- The permission field of the installed L2 table descriptor is the
caller-supplied permission (a 2-bit value). -/
theorem tableDescriptor_AP (perm base : Nat) (hperm : perm < 4) :
    get_value (tableDescriptor perm base) RawL2Entry.AP = perm := by
  unfold tableDescriptor
  rw [get_value_set_value_of_ge _ _ RawL2Entry.VALID RawL2Entry.AP (by decide),
    get_value_set_value_of_ge _ _ RawL2Entry.TYPE RawL2Entry.AP (by decide),
    get_value_set_value_of_ge _ _ RawL2Entry.ATTR RawL2Entry.AP (by decide),
    get_value_set_value_of_ge _ _ RawL2Entry.NS RawL2Entry.AP (by decide),
    get_value_set_value_self]
  exact Nat.mod_eq_of_lt hperm

/-- The shareability field of the installed L2 table descriptor. -/
theorem tableDescriptor_SH (perm base : Nat) :
    get_value (tableDescriptor perm base) RawL2Entry.SH = EntrySh.ISh := by
  unfold tableDescriptor
  rw [get_value_set_value_of_ge _ _ RawL2Entry.VALID RawL2Entry.SH (by decide),
    get_value_set_value_of_ge _ _ RawL2Entry.TYPE RawL2Entry.SH (by decide),
    get_value_set_value_of_ge _ _ RawL2Entry.ATTR RawL2Entry.SH (by decide),
    get_value_set_value_of_ge _ _ RawL2Entry.NS RawL2Entry.SH (by decide),
    get_value_set_value_of_ge _ _ RawL2Entry.AP RawL2Entry.SH (by decide),
    get_value_set_value_self]
  decide

/-- The access flag of the installed L2 table descriptor. -/
theorem tableDescriptor_AF (perm base : Nat) :
    get_value (tableDescriptor perm base) RawL2Entry.AF = 1 := by
  unfold tableDescriptor
  rw [get_value_set_value_of_ge _ _ RawL2Entry.VALID RawL2Entry.AF (by decide),
    get_value_set_value_of_ge _ _ RawL2Entry.TYPE RawL2Entry.AF (by decide),
    get_value_set_value_of_ge _ _ RawL2Entry.ATTR RawL2Entry.AF (by decide),
    get_value_set_value_of_ge _ _ RawL2Entry.NS RawL2Entry.AF (by decide),
    get_value_set_value_of_ge _ _ RawL2Entry.AP RawL2Entry.AF (by decide),
    get_value_set_value_of_ge _ _ RawL2Entry.SH RawL2Entry.AF (by decide),
    get_value_set_value_self]
  decide

/-- The address field of the installed L2 table descriptor holds the L3
table's physical base shifted by the granule bit width. -/
theorem tableDescriptor_ADDR (perm base : Nat) (hbase : base < 2 ^ 48) :
    get_value (tableDescriptor perm base) RawL2Entry.ADDR = base >>> PAGE_ALIGN := by
  unfold tableDescriptor
  rw [get_value_set_value_of_ge _ _ RawL2Entry.VALID RawL2Entry.ADDR (by decide),
    get_value_set_value_of_ge _ _ RawL2Entry.TYPE RawL2Entry.ADDR (by decide),
    get_value_set_value_of_ge _ _ RawL2Entry.ATTR RawL2Entry.ADDR (by decide),
    get_value_set_value_of_ge _ _ RawL2Entry.NS RawL2Entry.ADDR (by decide),
    get_value_set_value_of_ge _ _ RawL2Entry.AP RawL2Entry.ADDR (by decide),
    get_value_set_value_of_ge _ _ RawL2Entry.SH RawL2Entry.ADDR (by decide),
    get_value_set_value_of_ge _ _ RawL2Entry.AF RawL2Entry.ADDR (by decide),
    get_value_set_value_self]
  have hlt : base >>> PAGE_ALIGN < 2 ^ 32 := by
    rw [Nat.shiftRight_eq_div_pow]
    have : (PAGE_ALIGN : Nat) = 16 := rfl
    rw [this]
    omega
  exact Nat.mod_eq_of_lt hlt

/-- The valid bit of the leaf descriptor installed by `alloc`. -/
theorem leafDescriptor_VALID (pa : Nat) (perm : PagePerm) :
    get_value (leafDescriptor pa perm) RawL2Entry.VALID = 1 := by
  unfold leafDescriptor
  rw [get_value_set_value_self]
  decide

/-- The address field of the leaf descriptor installed by `alloc` holds the
page's physical address shifted by the granule bit width. -/
theorem leafDescriptor_ADDR (pa : Nat) (perm : PagePerm) (hpa : pa < 2 ^ 48) :
    get_value (leafDescriptor pa perm) RawL2Entry.ADDR = pa >>> PAGE_ALIGN := by
  unfold leafDescriptor
  rw [get_value_set_value_of_ge _ _ RawL2Entry.VALID RawL2Entry.ADDR (by decide),
    get_value_set_value_of_ge _ _ RawL2Entry.TYPE RawL2Entry.ADDR (by decide),
    get_value_set_value_of_ge _ _ RawL2Entry.ATTR RawL2Entry.ADDR (by decide),
    get_value_set_value_of_ge _ _ RawL2Entry.NS RawL2Entry.ADDR (by decide),
    get_value_set_value_of_ge _ _ RawL2Entry.AP RawL2Entry.ADDR (by decide),
    get_value_set_value_of_ge _ _ RawL2Entry.SH RawL2Entry.ADDR (by decide),
    get_value_set_value_of_ge _ _ RawL2Entry.AF RawL2Entry.ADDR (by decide),
    get_value_set_value_self]
  have hlt : pa >>> PAGE_ALIGN < 2 ^ 32 := by
    rw [Nat.shiftRight_eq_div_pow]
    have : (PAGE_ALIGN : Nat) = 16 := rfl
    rw [this]
    omega
  exact Nat.mod_eq_of_lt hlt

/-- The valid bit of the identity-map leaf descriptor of the kernel table. -/
theorem kernLeaf_VALID (pa attr : Nat) :
    get_value (kernLeaf pa attr) RawL2Entry.VALID = 1 := by
  unfold kernLeaf
  rw [get_value_set_value_self]
  decide

/-- C5: `PageTable::new(perm)` installs, in each of the first `N = 2` L2
entries, a table descriptor whose address field is the corresponding L3
table's physical base shifted by the granule bit width, with access flag
set, inner-shareable, permission equal to the caller-supplied `perm`,
"normal memory" attribute, table type, and valid bit set. -/
theorem new_l2_table_descriptors (perm : Nat) (l3base : Nat → Nat) (i : Nat)
    (hi : i < 2) (hperm : perm < 4) (hbase : l3base i < 2 ^ 48) :
    get_value ((PageTable.new perm l3base).l2 i) RawL2Entry.ADDR
        = l3base i >>> PAGE_ALIGN ∧
    get_value ((PageTable.new perm l3base).l2 i) RawL2Entry.AF = 1 ∧
    get_value ((PageTable.new perm l3base).l2 i) RawL2Entry.SH = EntrySh.ISh ∧
    get_value ((PageTable.new perm l3base).l2 i) RawL2Entry.AP = perm ∧
    get_value ((PageTable.new perm l3base).l2 i) RawL2Entry.ATTR = EntryAttr.Mem ∧
    get_value ((PageTable.new perm l3base).l2 i) RawL2Entry.TYPE = EntryType.Table ∧
    get_value ((PageTable.new perm l3base).l2 i) RawL2Entry.VALID = EntryValid.Valid := by
  have hl2 : (PageTable.new perm l3base).l2 i = tableDescriptor perm (l3base i) := by
    simp only [PageTable.new]
    rw [if_pos hi]
  rw [hl2]
  exact ⟨tableDescriptor_ADDR perm (l3base i) hbase, tableDescriptor_AF perm (l3base i),
    tableDescriptor_SH perm (l3base i), tableDescriptor_AP perm (l3base i) hperm,
    tableDescriptor_ATTR perm (l3base i), tableDescriptor_TYPE perm (l3base i),
    tableDescriptor_VALID perm (l3base i)⟩

/-- Witness for C5: the kernel permission table with both L3 bases at
`0x80000`, entry 0. -/
theorem new_l2_table_descriptors_witness :
    get_value ((PageTable.new 0 (fun _ => 0x80000)).l2 0) RawL2Entry.ADDR
        = 0x80000 >>> PAGE_ALIGN ∧
    get_value ((PageTable.new 0 (fun _ => 0x80000)).l2 0) RawL2Entry.AF = 1 ∧
    get_value ((PageTable.new 0 (fun _ => 0x80000)).l2 0) RawL2Entry.SH = EntrySh.ISh ∧
    get_value ((PageTable.new 0 (fun _ => 0x80000)).l2 0) RawL2Entry.AP = 0 ∧
    get_value ((PageTable.new 0 (fun _ => 0x80000)).l2 0) RawL2Entry.ATTR = EntryAttr.Mem ∧
    get_value ((PageTable.new 0 (fun _ => 0x80000)).l2 0) RawL2Entry.TYPE = EntryType.Table ∧
    get_value ((PageTable.new 0 (fun _ => 0x80000)).l2 0) RawL2Entry.VALID = EntryValid.Valid :=
  new_l2_table_descriptors 0 (fun _ => 0x80000) 0 (by decide) (by decide) (by decide)

/-- C9: `L3Entry::get_page_addr()` returns `Some` of the entry's `ADDR`
field exactly when the entry's valid bit is non-zero, and `None` exactly
when the valid bit is zero: it never fabricates a frame address for an
invalid entry. -/
theorem get_page_addr_iff_valid (e : Nat) :
    (L3Entry.get_page_addr e = some (get_value e RawL2Entry.ADDR) ↔
      get_value e RawL2Entry.VALID ≠ 0) ∧
    (L3Entry.get_page_addr e = none ↔ get_value e RawL2Entry.VALID = 0) := by
  by_cases h : get_value e RawL2Entry.VALID = 0
  · simp [L3Entry.get_page_addr, L3Entry.is_valid, h]
  · have hb : (get_value e RawL2Entry.VALID != 0) = true := by
      simpa using h
    simp [L3Entry.get_page_addr, L3Entry.is_valid, hb, h]

/-- C10: immediately after `PageTable::new(perm)`, the table maps nothing:
every L3 entry of both L3 tables is the all-zero descriptor (invalid, no
page address), every L2 entry at index `≥ 2` is the all-zero descriptor,
and `is_valid` is `false` on every granule-aligned address of the supported
window. -/
theorem new_maps_nothing (perm : Nat) (l3base : Nat → Nat) :
    (∀ i j : Nat, (PageTable.new perm l3base).l3 i j = 0 ∧
      L3Entry.is_valid ((PageTable.new perm l3base).l3 i j) = false ∧
      L3Entry.get_page_addr ((PageTable.new perm l3base).l3 i j) = none) ∧
    (∀ i : Nat, 2 ≤ i → (PageTable.new perm l3base).l2 i = 0) ∧
    (∀ va : Nat, va % PAGE_SIZE = 0 → va < 2 ^ 30 →
      PageTable.is_valid (PageTable.new perm l3base) va = some false) := by
  refine ⟨fun i j => ⟨rfl, rfl, rfl⟩, fun i hi => ?_, fun va h1 h2 => ?_⟩
  · simp only [PageTable.new]
    rw [if_neg (by omega)]
  · simp only [PageTable.is_valid]
    rw [locate_window va h1 h2]
    rfl

/-- Witness for C10 at `perm = 5`, both L3 bases 0, slot `(1, 9)`, L2 index
2, and `va = 65536`. -/
theorem new_maps_nothing_witness :
    L3Entry.get_page_addr ((PageTable.new 5 (fun _ => 0)).l3 1 9) = none ∧
    (PageTable.new 5 (fun _ => 0)).l2 2 = 0 ∧
    PageTable.is_valid (PageTable.new 5 (fun _ => 0)) 65536 = some false :=
  ⟨((new_maps_nothing 5 (fun _ => 0)).1 1 9).2.2,
   (new_maps_nothing 5 (fun _ => 0)).2.1 2 (by decide),
   (new_maps_nothing 5 (fun _ => 0)).2.2 65536 (by decide) (by decide)⟩

/-- C8 (divergence): the bodies of `L2PageTable::as_ptr` and
`L3PageTable::as_ptr` are unconditional self-calls, so no amount of fuel
makes either produce a value — they never return, and `PageTable::new`,
which calls them, cannot terminate either. -/
theorem as_ptr_never_returns (fuel : Nat) :
    L2PageTable.as_ptrFuel fuel = none ∧ L3PageTable.as_ptrFuel fuel = none := by
  induction fuel with
  | zero => exact ⟨rfl, rfl⟩
  | succ n ih =>
      refine ⟨?_, ?_⟩
      · rw [L2PageTable.as_ptrFuel]
        exact ih.1
      · rw [L3PageTable.as_ptrFuel]
        exact ih.2

/- ### Validity after construction and allocation -/

/-- On a window address, `is_valid` is the valid bit of the located slot. -/
theorem is_valid_window (pt : PageTable) (va : Nat)
    (h1 : va % PAGE_SIZE = 0) (h2 : va < 2 ^ 30) :
    PageTable.is_valid pt va
      = some (L3Entry.is_valid (pt.l3 (va / 2 ^ 29) ((va / 2 ^ 16) % 2 ^ 13))) := by
  simp only [PageTable.is_valid]
  rw [locate_window va h1 h2]
  rfl

/-- C6: a freshly constructed kernel address space reports `is_valid` true
on every granule-aligned address of the RAM range `[0, ram_end)` and of the
MMIO range `[io_base, io_base_end)`, and false on every other granule-aligned
address inside the supported window. -/
theorem kern_new_is_valid (l3base : Nat → Nat)
    (ram_end io_base io_base_end va : Nat)
    (h1 : va % PAGE_SIZE = 0) (h2 : va < 2 ^ 30) :
    PageTable.is_valid (KernPageTable.new l3base ram_end io_base io_base_end) va
      = some (decide (va < ram_end)
          || (decide (io_base ≤ va) && decide (va < io_base_end))) := by
  have hi : va / 2 ^ 29 < 2 := by omega
  have hj : (va / 2 ^ 16) % 2 ^ 13 < 8192 := by omega
  have hva := window_recombine va h1 h2
  rw [is_valid_window _ va h1 h2]
  congr 1
  simp only [KernPageTable.new]
  rw [if_pos ⟨hi, hj⟩, hva]
  by_cases hram : va < ram_end
  · rw [if_pos hram]
    simp [L3Entry.is_valid, kernLeaf_VALID, hram]
  · rw [if_neg hram]
    by_cases hio : io_base ≤ va ∧ va < io_base_end
    · rw [if_pos hio]
      simp [L3Entry.is_valid, kernLeaf_VALID, hram, hio.1, hio.2]
    · rw [if_neg hio]
      have hz : L3Entry.is_valid
          ((PageTable.new EntryPerm.KERN_RW l3base).l3 (va / 2 ^ 29)
            ((va / 2 ^ 16) % 2 ^ 13)) = false := rfl
      rw [hz]
      by_cases hio1 : io_base ≤ va
      · have hio2 : ¬ va < io_base_end := fun hc => hio ⟨hio1, hc⟩
        simp [hram, hio1, hio2]
      · simp [hram, hio1]

/-- Witness for C6: RAM `[0, 0x20000)`, MMIO `[0x40000, 0x60000)`, evaluated
at the MMIO base `va = 0x40000`. -/
theorem kern_new_is_valid_witness :
    PageTable.is_valid (KernPageTable.new (fun _ => 0) 131072 262144 393216) 262144
      = some (decide (262144 < 131072)
          || (decide (262144 ≤ 262144) && decide (262144 < 393216))) :=
  kern_new_is_valid (fun _ => 0) 131072 262144 393216 262144 (by decide) (by decide)

/-- C7: `UserPageTable::alloc` on a virtual address whose L3 slot is already
valid fails deterministically (halts fatally, modelled as `none`), producing
no new table state — the existing mapping is untouched. -/
theorem alloc_already_mapped_fails (base : Nat) (pt : PageTable) (va pa : Nat)
    (perm : PagePerm) (h : PageTable.is_valid pt va = some true) :
    UserPageTable.alloc base pt va pa perm = none := by
  unfold UserPageTable.alloc
  by_cases hb : va < base
  · rw [if_pos hb]
  · rw [if_neg hb]
    cases hl : PageTable.locate va with
    | none => rfl
    | some p =>
        have hv : L3Entry.is_valid (pt.l3 p.2 p.1) = true := by
          simp only [PageTable.is_valid, hl, Option.map_some', Option.some.injEq] at h
          exact h
        rw [Option.some_bind, if_pos hv]

/-- Witness for C7: a table whose every L3 entry has the valid bit set
rejects `alloc` at `va = 65536`. -/
theorem alloc_already_mapped_fails_witness :
    UserPageTable.alloc 0 ⟨fun _ => 0, fun _ _ => 1⟩ 65536 131072 PagePerm.RW = none :=
  alloc_already_mapped_fails 0 ⟨fun _ => 0, fun _ _ => 1⟩ 65536 131072 PagePerm.RW
    (by decide)

/-- C1 (amended to the supported window): if `alloc` succeeds on a
granule-aligned `va` inside the 1 GiB window with a granule-aligned page at
physical `pa`, then the slot of `va` is valid afterwards, the installed
descriptor's frame-address field decodes to the physical address of the
returned page, and the validity of every other address inside the window is
unchanged. -/
theorem alloc_roundtrip_window (base : Nat) (pt : PageTable) (va pa : Nat)
    (perm : PagePerm) (r : PageTable × Nat)
    (h1 : va % PAGE_SIZE = 0) (h2 : va < 2 ^ 30)
    (h3 : pa % PAGE_SIZE = 0) (h4 : pa < 2 ^ 48)
    (halloc : UserPageTable.alloc base pt va pa perm = some r) :
    PageTable.is_valid r.1 va = some true ∧
    get_value (r.1.l3 (va / 2 ^ 29) ((va / 2 ^ 16) % 2 ^ 13))
        RawL2Entry.ADDR <<< PAGE_ALIGN = r.2 ∧
    r.2 = pa ∧
    ∀ va2 : Nat, va2 < 2 ^ 30 → va2 ≠ va →
      PageTable.is_valid r.1 va2 = PageTable.is_valid pt va2 := by
  have hl := locate_window va h1 h2
  unfold UserPageTable.alloc at halloc
  by_cases hb : va < base
  · rw [if_pos hb] at halloc
    cases halloc
  rw [if_neg hb, hl] at halloc
  simp only [Option.some_bind] at halloc
  by_cases hv : L3Entry.is_valid (pt.l3 (va / 2 ^ 29) ((va / 2 ^ 16) % 2 ^ 13)) = true
  · rw [if_pos hv] at halloc
    cases halloc
  rw [if_neg hv] at halloc
  unfold PageTable.set_entry at halloc
  rw [hl] at halloc
  simp only [Option.map_some', Option.some.injEq] at halloc
  subst halloc
  refine ⟨?_, ?_, rfl, ?_⟩
  · rw [is_valid_window _ va h1 h2]
    show some (L3Entry.is_valid (if va / 2 ^ 29 = va / 2 ^ 29 ∧
        (va / 2 ^ 16) % 2 ^ 13 = (va / 2 ^ 16) % 2 ^ 13 then leafDescriptor pa perm
        else pt.l3 (va / 2 ^ 29) ((va / 2 ^ 16) % 2 ^ 13))) = some true
    rw [if_pos ⟨rfl, rfl⟩]
    simp [L3Entry.is_valid, leafDescriptor_VALID]
  · show get_value (if va / 2 ^ 29 = va / 2 ^ 29 ∧
        (va / 2 ^ 16) % 2 ^ 13 = (va / 2 ^ 16) % 2 ^ 13 then leafDescriptor pa perm
        else pt.l3 (va / 2 ^ 29) ((va / 2 ^ 16) % 2 ^ 13))
        RawL2Entry.ADDR <<< PAGE_ALIGN = pa
    rw [if_pos ⟨rfl, rfl⟩, leafDescriptor_ADDR pa perm h4,
      Nat.shiftRight_eq_div_pow, Nat.shiftLeft_eq]
    have h3n : pa % 65536 = 0 := h3
    have hPA : (PAGE_ALIGN : Nat) = 16 := rfl
    rw [hPA]
    omega
  · intro va2 hlt2 hne
    by_cases ha : va2 % PAGE_SIZE = 0
    · rw [is_valid_window _ va2 ha hlt2, is_valid_window pt va2 ha hlt2]
      show some (L3Entry.is_valid (if va2 / 2 ^ 29 = va / 2 ^ 29 ∧
          (va2 / 2 ^ 16) % 2 ^ 13 = (va / 2 ^ 16) % 2 ^ 13 then leafDescriptor pa perm
          else pt.l3 (va2 / 2 ^ 29) ((va2 / 2 ^ 16) % 2 ^ 13)))
        = some (L3Entry.is_valid (pt.l3 (va2 / 2 ^ 29) ((va2 / 2 ^ 16) % 2 ^ 13)))
      have hne2 : ¬ (va2 / 2 ^ 29 = va / 2 ^ 29 ∧
          (va2 / 2 ^ 16) % 2 ^ 13 = (va / 2 ^ 16) % 2 ^ 13) := by
        rintro ⟨e1, e2⟩
        have rc2 := window_recombine va2 ha hlt2
        have rc1 := window_recombine va h1 h2
        apply hne
        omega
      rw [if_neg hne2]
    · have hnone : PageTable.locate va2 = none := by
        simp only [PageTable.locate]
        rw [if_pos ha]
      simp [PageTable.is_valid, hnone]

/-- Witness for the amended C1: allocating `va = 65536` in a fresh user
table with page `pa = 131072` validates `va` and leaves `va2 = 131072`
unchanged. -/
theorem alloc_roundtrip_window_witness :
    PageTable.is_valid ((UserPageTable.alloc 0 (UserPageTable.new (fun _ => 0))
        65536 131072 PagePerm.RW).getD (UserPageTable.new (fun _ => 0), 0)).1 65536
      = some true ∧
    PageTable.is_valid ((UserPageTable.alloc 0 (UserPageTable.new (fun _ => 0))
        65536 131072 PagePerm.RW).getD (UserPageTable.new (fun _ => 0), 0)).1 131072
      = PageTable.is_valid (UserPageTable.new (fun _ => 0)) 131072 := by
  have h := alloc_roundtrip_window 0 (UserPageTable.new (fun _ => 0)) 65536 131072
    PagePerm.RW
    ((UserPageTable.alloc 0 (UserPageTable.new (fun _ => 0)) 65536 131072
        PagePerm.RW).getD (UserPageTable.new (fun _ => 0), 0))
    (by decide) (by decide) (by decide) (by decide) rfl
  exact ⟨h.1, h.2.2.2 131072 (by decide) (by decide)⟩

/-- C1 as stated is false: `alloc` at `va = 65536` (succeeding, with the
page at `pa = 131072`) also flips `is_valid` of the distinct address
`va2 = 2^42 + 65536`, because `locate` masks the index bits of the address
instead of bounding it, so `va2` aliases `va`'s slot. -/
theorem alloc_changes_other_address :
    PageTable.is_valid (UserPageTable.new (fun _ => 0)) (2 ^ 42 + 65536) = some false ∧
    (UserPageTable.alloc 0 (UserPageTable.new (fun _ => 0)) 65536 131072
        PagePerm.RW).map (fun r => PageTable.is_valid r.1 (2 ^ 42 + 65536))
      = some (some true) ∧
    (2 : Nat) ^ 42 + 65536 ≠ 65536 :=
  ⟨by decide, by decide, by decide⟩
